import Mathlib

/-!
# fiotuf: the fetch-and-refresh layer of `internal/app_tuf.go`

A shallow embedding of `src/internal/app_tuf.go`.

* Go strings are embedded as Lean `String`s and inspected through their character
  lists.  Every literal the source compares against (`"file://"`, `"/config"`,
  `"/repo"`) is ASCII, so character positions and byte positions agree on them.
* A Go result pair `([]byte, error)` is an `Except GoError Bytes`: every return
  statement of the embedded functions is either `nil, err` or `data, nil`.
* `int64` values are `Int`s; no arithmetic is performed on them apart from
  comparisons, so no wrap-around can occur.
* The collaborators that live outside the file (the filesystem, `httpGet`, the
  go-tuf configuration and updater) are the fields of a `World`.
-/

namespace Fiotuf

/-! ## Go values -/

/-- Go `[]byte`. -/
abbrev Bytes := List UInt8

/-- The two sentinel errors a `strconv.NumError` can wrap. -/
inductive NumErrKind where
  | ErrSyntax
  | ErrRange
  deriving DecidableEq, Repr

/-- The error values that flow through the file: the two go-tuf `metadata` errors the
source constructs itself, the `strconv.NumError` of `strconv.ParseInt`, and any other
error handed back by a collaborator. -/
inductive GoError where
  | ErrDownloadHTTP (StatusCode : Int) (URL : String)
  | ErrDownloadLengthMismatch (Msg : String)
  | NumError (Func : String) (Num : String) (Err : NumErrKind)
  | other (msg : String)
  deriving DecidableEq, Repr

/-- A run-time panic of the Go program. -/
inductive Panic where
  | nilDereference
  deriving DecidableEq, Repr

deriving instance DecidableEq for Except

/-- A `*http.Client`; `none` is the nil pointer. -/
abbrev HttpClient := Option Nat

/-! ## Standard-library functions used by the source -/

/-- Go `strings.HasPrefix(s, p)`. -/
def HasPrefix (s p : String) : Bool :=
  p.data.isPrefixOf s.data

/-- Go slice expression `s[n:]` for a string, `n` counted on an ASCII head. -/
def sliceFrom (s : String) (n : Nat) : String :=
  String.mk (s.data.drop n)

/-- Whether `old` occurs in the character list (Go `strings.Contains` on lists). -/
def occursIn (old : List Char) : List Char → Bool
  | [] => old.isPrefixOf []
  | c :: cs => old.isPrefixOf (c :: cs) || occursIn old cs

/-- Go `strings.Contains(s, substr)`. -/
def Contains (s substr : String) : Bool :=
  occursIn substr.data s.data

/-- The replacement loop of Go `strings.Replace` for a non-empty `old`: scan left to
right, replacing each leftmost non-overlapping occurrence of `old` by `new`.
`lim` is the number of replacements still allowed (`none`: no limit) and `skip` the
number of characters of the occurrence just replaced that remain to be stepped over. -/
def replaceLoop (old new : List Char) : Option Nat → Nat → List Char → List Char
  | _, _, [] => []
  | lim, skip + 1, _ :: cs => replaceLoop old new lim skip cs
  | lim, 0, c :: cs =>
    if lim ≠ some 0 ∧ old.isPrefixOf (c :: cs) = true then
      new ++ replaceLoop old new (lim.map (· - 1)) (old.length - 1) cs
    else
      c :: replaceLoop old new lim 0 cs

/-- The replacement loop of Go `strings.Replace` for the empty `old`: `new` is
inserted after each of the first `k` characters. -/
def insertAfterEach (new : List Char) : Nat → List Char → List Char
  | 0, s => s
  | _, [] => []
  | k + 1, c :: cs => c :: (new ++ insertAfterEach new k cs)

/-- Go `strings.Replace(s, old, new, n)`: the first `n` non-overlapping occurrences
of `old` replaced by `new`, all of them when `n < 0`. -/
def Replace (s old new : String) (n : Int) : String :=
  if old = new ∨ n = 0 then s
  else if old.data = [] then
    String.mk (new.data ++
      insertAfterEach new.data (if n < 0 then s.data.length else n.toNat - 1) s.data)
  else
    String.mk (replaceLoop old.data new.data (if n < 0 then none else some n.toNat) 0 s.data)

/-- Go `strconv.IntSize` on a 64-bit platform. -/
def IntSize : Nat := 64

/-- The digit loop of Go `strconv.ParseUint(s, 10, bitSize)`: the accumulated value
and the error, if any.  A character that is not a decimal digit is a syntax error; a
value that leaves `uint64` or exceeds `maxVal` is a range error carrying `maxVal`. -/
def parseUintLoop (maxVal : Nat) : List Char → Nat → Nat × Option NumErrKind
  | [], n => (n, none)
  | c :: cs, n =>
    if '0' ≤ c ∧ c ≤ '9' then
      let d := c.toNat - '0'.toNat
      if n ≥ (2 ^ 64 - 1) / 10 + 1 then (maxVal, some NumErrKind.ErrRange)
      else
        let n1 := n * 10 + d
        if n1 ≥ 2 ^ 64 ∨ n1 > maxVal then (maxVal, some NumErrKind.ErrRange)
        else parseUintLoop maxVal cs n1
    else (0, some NumErrKind.ErrSyntax)

/-- Go `strconv.ParseUint(s, 10, bitSize)` for `0 ≤ bitSize ≤ 64`. -/
def ParseUintBase10 (s : List Char) (bitSize : Nat) : Nat × Option NumErrKind :=
  if s = [] then (0, some NumErrKind.ErrSyntax)
  else
    let bitSize := if bitSize = 0 then IntSize else bitSize
    parseUintLoop (2 ^ bitSize - 1) s 0

/-- Go `strconv.ParseInt(s, 10, bitSize)` for `0 ≤ bitSize ≤ 64`. -/
def ParseIntBase10 (s : String) (bitSize : Nat) : Except GoError Int :=
  match s.data with
  | [] => Except.error (GoError.NumError "ParseInt" s NumErrKind.ErrSyntax)
  | c :: cs =>
    let neg := c == '-'
    let digits := if c == '+' || c == '-' then cs else c :: cs
    match ParseUintBase10 digits bitSize with
    | (_, some NumErrKind.ErrSyntax) =>
      Except.error (GoError.NumError "ParseInt" s NumErrKind.ErrSyntax)
    | (un, _) =>
      let bitSize := if bitSize = 0 then IntSize else bitSize
      let cutoff := 2 ^ (bitSize - 1)
      if !neg && decide (un ≥ cutoff) then
        Except.error (GoError.NumError "ParseInt" s NumErrKind.ErrRange)
      else if neg && decide (un > cutoff) then
        Except.error (GoError.NumError "ParseInt" s NumErrKind.ErrRange)
      else
        Except.ok (if neg then - (un : Int) else (un : Int))

/-- Go `http.Header`: canonical key to list of values. -/
abbrev Header := List (String × List String)

/-- Go `http.Header.Get(key)` for an already canonical `key`: the first value stored
under `key`, or the empty string. -/
def Header.Get (h : Header) (key : String) : String :=
  match h.lookup key with
  | some (v :: _) => v
  | _ => ""

/-- The format `"download failed for %s, length %d is larger than expected %d"`. -/
def lengthMismatchMsg (urlPath : String) (length maxLength : Int) : String :=
  "download failed for " ++ urlPath ++ ", length " ++ toString length ++
    " is larger than expected " ++ toString maxLength

/-! ## Data model of the source -/

/-- The response value returned by `httpGet`. -/
structure HttpRes where
  StatusCode : Int
  Body : Bytes
  Header : Header
  deriving DecidableEq, Repr

/-- Struct `FioFetcher`. -/
structure FioFetcher where
  client : HttpClient
  tag : String
  repoUrl : String
  deriving DecidableEq, Repr

/-- The fields of go-tuf's `config.UpdaterConfig` that `config.New` and `getTufCfg`
set. -/
structure UpdaterConfig where
  RemoteMetadataURL : String
  LocalTrustedRoot : Bytes
  LocalMetadataDir : String
  LocalTargetsDir : String
  RemoteTargetsURL : String
  PrefixTargetsWithHash : Bool
  Fetcher : Option FioFetcher
  deriving DecidableEq, Repr

/-- The top-level targets mapping: target name to its metadata. -/
abbrev Targets := List (String × String)

/-- The collaborators of the file.  `U` is the state of a go-tuf `updater.Updater`.
`Refresh` returns the updater as the call leaves it together with its error.  The two
accessors are methods on `*updater.Updater`: they receive the pointer they are called
on, the nil pointer (`none`) included, and either return or panic.
`GetTrustedMetadataSetRoot` stands for `GetTrustedMetadataSet().Root`. -/
structure World (U : Type) where
  ReadFile : String → Except GoError Bytes
  httpGet : HttpClient → String → List (String × String) → Except GoError HttpRes
  configNew : String → Bytes → Except GoError UpdaterConfig
  updaterNew : UpdaterConfig → Except GoError U
  Refresh : U → U × Option GoError
  GetTopLevelTargets : Option U → Except Panic Targets
  GetTrustedMetadataSetRoot : Option U → Except Panic String

/-- The part of struct `App` that the file reads: the control-plane URL and the
key-value lookup `a.sota.Get`. -/
structure App where
  configUrl : String
  sotaGet : String → String

/-- The package-level variables `fioUpdater` and `fioClient`. -/
structure Globals (U : Type) where
  fioUpdater : Option U
  fioClient : HttpClient
  deriving DecidableEq, Repr

/-- The package-level variables at process start: both pointers are nil. -/
def Globals.initial (U : Type) : Globals U :=
  { fioUpdater := none, fioClient := none }

/-! ## Byte fetcher -/

/-- Function `readLocalFile`. -/
def readLocalFile {U : Type} (w : World U) (filePath : String) : Except GoError Bytes :=
  match w.ReadFile filePath with
  | Except.error _ => Except.error (GoError.ErrDownloadHTTP 404 ("file://" ++ filePath))
  | Except.ok data => Except.ok data

/-- Function `readRemoteFile`. -/
def readRemoteFile {U : Type} (w : World U) (d : FioFetcher) (urlPath : String)
    (maxLength : Int) : Except GoError Bytes :=
  match w.httpGet d.client urlPath [("x-ats-tags", d.tag)] with
  | Except.error err => Except.error err
  | Except.ok res =>
    if res.StatusCode ≠ 200 then
      Except.error (GoError.ErrDownloadHTTP res.StatusCode urlPath)
    else
      let header := res.Header.Get "Content-Length"
      let declared : Except GoError Unit :=
        if header ≠ "" then
          match ParseIntBase10 header 0 with
          | Except.error err => Except.error err
          | Except.ok length =>
            if length > maxLength then
              Except.error
                (GoError.ErrDownloadLengthMismatch (lengthMismatchMsg urlPath length maxLength))
            else Except.ok ()
        else Except.ok ()
      match declared with
      | Except.error err => Except.error err
      | Except.ok () =>
        let length : Int := (res.Body.length : Int)
        if length > maxLength then
          Except.error
            (GoError.ErrDownloadLengthMismatch (lengthMismatchMsg urlPath length maxLength))
        else Except.ok res.Body

/-- Method `(*FioFetcher).DownloadFile`. -/
def DownloadFile {U : Type} (w : World U) (d : FioFetcher) (urlPath : String)
    (maxLength : Int) (_timeout : Int) : Except GoError Bytes :=
  if HasPrefix urlPath "file://" then
    readLocalFile w (sliceFrom urlPath "file://".length)
  else
    readRemoteFile w d urlPath maxLength

/-! ## Refresh orchestration -/

/-- Function `getTufCfg`.  The two `filepath.Join` calls have constant arguments and
are written as their results. -/
def getTufCfg {U : Type} (w : World U) (client : HttpClient) (repoUrl : String)
    (tag : String) : Except GoError UpdaterConfig :=
  let localMetadataDir := "/var/sota/tuf/"
  match w.ReadFile "/var/sota/tuf/root.json" with
  | Except.error err => Except.error err
  | Except.ok rootBytes =>
    match w.configNew repoUrl rootBytes with
    | Except.error err => Except.error err
    | Except.ok cfg =>
      Except.ok { cfg with
        LocalMetadataDir := localMetadataDir
        LocalTargetsDir := "/var/sota/tuf/download"
        RemoteTargetsURL := repoUrl
        PrefixTargetsWithHash := true
        Fetcher := some { client := client, tag := tag, repoUrl := repoUrl } }

/-- Function `refreshTuf`: the package-level variables after the call and the returned
error (or the panic that ended the call).  `fioUpdater` is a pointer to the updater on
which `Refresh` then runs, so after the call it shows the updater as `Refresh` left it.
After a successful `Refresh` the target names are read once more, for logging. -/
def refreshTuf {U : Type} (w : World U) (g : Globals U) (client : HttpClient)
    (repoUrl : String) (tag : String) : Globals U × Except Panic (Option GoError) :=
  match getTufCfg w client repoUrl tag with
  | Except.error err => (g, Except.ok (some err))
  | Except.ok cfg =>
    match w.updaterNew cfg with
    | Except.error err => (g, Except.ok (some err))
    | Except.ok up =>
      let g1 := { g with fioUpdater := some up }
      match w.Refresh up with
      | (up1, some err) => ({ g1 with fioUpdater := some up1 }, Except.ok (some err))
      | (up1, none) =>
        match w.GetTopLevelTargets (some up1) with
        | Except.error p => ({ g1 with fioUpdater := some up1 }, Except.error p)
        | Except.ok _ => ({ g1 with fioUpdater := some up1 }, Except.ok none)

/-- The repository base chosen by `refreshTufApp` (the `if localRepoPath == ""` block). -/
def resolveRepoUrl (a : App) (localRepoPath : String) : String :=
  if localRepoPath = "" then
    Replace a.configUrl "/config" "/repo" (-1)
  else if HasPrefix localRepoPath "file://" then
    localRepoPath
  else
    "file://" ++ localRepoPath

/-- Method `(*App).refreshTufApp`. -/
def refreshTufApp {U : Type} (w : World U) (a : App) (g : Globals U) (client : HttpClient)
    (localRepoPath : String) : Globals U × Except Panic (Option GoError) :=
  let g1 := { g with fioClient := client }
  let tag := a.sotaGet "pacman.tags"
  let repoUrl := resolveRepoUrl a localRepoPath
  refreshTuf w g1 client repoUrl tag

/-! ## Control API -/

/-- Function `getTargetsHttp`: the status and value handed to `c.IndentedJSON`.  The
handler calls `GetTopLevelTargets` on `fioUpdater` as it is, without a nil check.  (The
slice `ret` the handler also fills is never used.) -/
def getTargetsHttp {U : Type} (w : World U) (g : Globals U) : Except Panic (Int × Targets) :=
  match w.GetTopLevelTargets g.fioUpdater with
  | Except.error p => Except.error p
  | Except.ok targets => Except.ok (200, targets)

/-- Function `getRootHttp`: the status and value handed to `c.IndentedJSON`.  The
handler calls `GetTrustedMetadataSet` on `fioUpdater` as it is, without a nil check. -/
def getRootHttp {U : Type} (w : World U) (g : Globals U) : Except Panic (Int × String) :=
  match w.GetTrustedMetadataSetRoot g.fioUpdater with
  | Except.error p => Except.error p
  | Except.ok root => Except.ok (200, root)

/-! ## Concrete worlds -/

/-- A world given by tables.  Files are looked up by path and responses by URL.  The
state of an updater is the targets mapping it has loaded: `updater.New` starts with
none loaded, and `Refresh` either loads `remote` or fails and loads nothing.  As in
go-tuf, the accessors read the fields of their receiver, so they panic on the nil
pointer. -/
def tableWorld (files : List (String × Bytes)) (responses : List (String × HttpRes))
    (remote : Except GoError Targets) : World Targets where
  ReadFile path :=
    match files.lookup path with
    | some data => Except.ok data
    | none => Except.error (GoError.other "no such file or directory")
  httpGet _ url _ :=
    match responses.lookup url with
    | some res => Except.ok res
    | none => Except.error (GoError.other "connection refused")
  configNew repoUrl rootBytes :=
    Except.ok
      { RemoteMetadataURL := repoUrl, LocalTrustedRoot := rootBytes, LocalMetadataDir := "",
        LocalTargetsDir := "", RemoteTargetsURL := "", PrefixTargetsWithHash := false,
        Fetcher := none }
  updaterNew _ := Except.ok []
  Refresh up :=
    match remote with
    | Except.ok targets => (targets, none)
    | Except.error err => (up, some err)
  GetTopLevelTargets up :=
    match up with
    | none => Except.error Panic.nilDereference
    | some targets => Except.ok targets
  GetTrustedMetadataSetRoot up :=
    match up with
    | none => Except.error Panic.nilDereference
    | some _ => Except.ok "root"

/-- A world in which every step of a refresh succeeds and the state of an updater is
the configuration it was built from, so that after a refresh the slot shows the
repository base, the tag and the fetcher that `refreshTuf` was handed. -/
def recordingWorld : World UpdaterConfig where
  ReadFile _ := Except.ok []
  httpGet _ _ _ := Except.error (GoError.other "connection refused")
  configNew repoUrl rootBytes :=
    Except.ok
      { RemoteMetadataURL := repoUrl, LocalTrustedRoot := rootBytes, LocalMetadataDir := "",
        LocalTargetsDir := "", RemoteTargetsURL := "", PrefixTargetsWithHash := false,
        Fetcher := none }
  updaterNew cfg := Except.ok cfg
  Refresh up := (up, none)
  GetTopLevelTargets up :=
    match up with
    | none => Except.error Panic.nilDereference
    | some _ => Except.ok []
  GetTrustedMetadataSetRoot up :=
    match up with
    | none => Except.error Panic.nilDereference
    | some _ => Except.ok "root"

/-- A fetcher with no client and tag `main`. -/
def sampleFetcher : FioFetcher :=
  { client := none, tag := "main", repoUrl := "https://example.com/repo" }

/-- An application whose control-plane URL is `https://example.com/config`. -/
def sampleApp : App :=
  { configUrl := "https://example.com/config", sotaGet := fun _ => "main" }

/-! ## Strings -/

theorem hasPrefix_append (p s : String) : HasPrefix (p ++ s) p = true := by
  simp [HasPrefix, String.data_append]

theorem sliceFrom_append (p s : String) : sliceFrom (p ++ s) p.length = s := by
  show String.mk ((p ++ s).data.drop p.data.length) = s
  rw [String.data_append, List.drop_left]

theorem hasPrefix_iff (s p : String) : HasPrefix s p = true ↔ p.data <+: s.data := by
  simp [HasPrefix]

/-- The model of `strings.Replace` on the outputs documented for the Go function. -/
theorem replace_samples :
    Replace "oink oink oink" "k" "ky" 2 = "oinky oinky oink" ∧
    Replace "oink oink oink" "oink" "moo" (-1) = "moo moo moo" ∧
    Replace "aaaa" "aa" "b" (-1) = "bb" ∧
    Replace "abc" "" "X" (-1) = "XaXbXcX" ∧
    Replace "abc" "" "X" 2 = "XaXbc" ∧
    Replace "abc" "x" "y" (-1) = "abc" := by
  decide

/-- The model of `strconv.ParseInt(s, 10, 0)` on sample inputs. -/
theorem parseIntBase10_samples :
    ParseIntBase10 "500" 0 = Except.ok 500 ∧
    ParseIntBase10 "+7" 0 = Except.ok 7 ∧
    ParseIntBase10 "-1" 0 = Except.ok (-1) ∧
    ParseIntBase10 "-9223372036854775808" 0 = Except.ok (-9223372036854775808) ∧
    ParseIntBase10 "9223372036854775808" 0
      = Except.error (GoError.NumError "ParseInt" "9223372036854775808" NumErrKind.ErrRange) ∧
    ParseIntBase10 "abc" 0
      = Except.error (GoError.NumError "ParseInt" "abc" NumErrKind.ErrSyntax) ∧
    ParseIntBase10 "1_000" 0
      = Except.error (GoError.NumError "ParseInt" "1_000" NumErrKind.ErrSyntax) := by
  decide

/-! ## Byte fetcher -/

theorem downloadFile_local {U : Type} (w : World U) (d : FioFetcher) (path : String)
    (maxLength timeout : Int) :
    DownloadFile w d ("file://" ++ path) maxLength timeout = readLocalFile w path := by
  unfold DownloadFile
  rw [hasPrefix_append, sliceFrom_append]
  simp

theorem downloadFile_local_readable {U : Type} (w : World U) (d : FioFetcher)
    (path : String) (maxLength timeout : Int) (data : Bytes)
    (hread : w.ReadFile path = Except.ok data) :
    DownloadFile w d ("file://" ++ path) maxLength timeout = Except.ok data := by
  rw [downloadFile_local]
  simp [readLocalFile, hread]

theorem downloadFile_remote {U : Type} (w : World U) (d : FioFetcher) (urlPath : String)
    (maxLength timeout : Int) (hurl : HasPrefix urlPath "file://" = false) :
    DownloadFile w d urlPath maxLength timeout = readRemoteFile w d urlPath maxLength := by
  unfold DownloadFile
  simp [hurl]

/-- C5. For every location `"file://" + path` whose file cannot be read (for whatever
reason `e`), `DownloadFile` returns no bytes and the transport failure `ErrDownloadHTTP`
with status code 404 and the original location string as URL, for every `maxLength`
and `timeout`. -/
theorem downloadFile_unreadable_local_is_404 {U : Type} (w : World U) (d : FioFetcher)
    (path : String) (maxLength timeout : Int) (e : GoError)
    (hread : w.ReadFile path = Except.error e) :
    DownloadFile w d ("file://" ++ path) maxLength timeout
      = Except.error (GoError.ErrDownloadHTTP 404 ("file://" ++ path)) := by
  rw [downloadFile_local]
  simp [readLocalFile, hread]

/-- C6. For every remote URL and every response whose status code is not 200,
`DownloadFile` returns no bytes and the transport failure `ErrDownloadHTTP` carrying
exactly the response's status code and the requested URL, whatever the response's
headers (an oversized or malformed `Content-Length` included) and body are. -/
theorem downloadFile_non200_is_transport_failure {U : Type} (w : World U) (d : FioFetcher)
    (urlPath : String) (maxLength timeout : Int) (status : Int) (body : Bytes)
    (header : Header) (hurl : HasPrefix urlPath "file://" = false)
    (hget : w.httpGet d.client urlPath [("x-ats-tags", d.tag)]
      = Except.ok { StatusCode := status, Body := body, Header := header })
    (hstatus : status ≠ 200) :
    DownloadFile w d urlPath maxLength timeout
      = Except.error (GoError.ErrDownloadHTTP status urlPath) := by
  rw [downloadFile_remote w d urlPath maxLength timeout hurl]
  simp [readRemoteFile, hget, hstatus]

theorem parseIntBase10_empty (bitSize : Nat) (v : Int) :
    ParseIntBase10 "" bitSize ≠ Except.ok v := by
  simp [ParseIntBase10]

/-- C2. For every remote URL, every `maxLength` and every response with status 200
whose `Content-Length` header parses to an integer `v > maxLength`, `DownloadFile`
returns no bytes and the error `ErrDownloadLengthMismatch`; the outcome is built from
the URL, `v` and `maxLength` only, so it is the same for every response body. -/
theorem downloadFile_declared_length_too_large {U : Type} (w : World U) (d : FioFetcher)
    (urlPath : String) (maxLength timeout : Int) (body : Bytes) (header : Header) (v : Int)
    (hurl : HasPrefix urlPath "file://" = false)
    (hget : w.httpGet d.client urlPath [("x-ats-tags", d.tag)]
      = Except.ok { StatusCode := 200, Body := body, Header := header })
    (hparse : ParseIntBase10 (header.Get "Content-Length") 0 = Except.ok v)
    (hlarge : v > maxLength) :
    DownloadFile w d urlPath maxLength timeout
      = Except.error
          (GoError.ErrDownloadLengthMismatch (lengthMismatchMsg urlPath v maxLength)) := by
  rw [downloadFile_remote w d urlPath maxLength timeout hurl]
  have hne : header.Get "Content-Length" ≠ "" := by
    intro h0
    rw [h0] at hparse
    exact parseIntBase10_empty 0 v hparse
  simp [readRemoteFile, hget, hne, hparse, hlarge]

/-- Witness of C2: `maxLength = 100`, the server declares `Content-Length: 500`. -/
theorem downloadFile_declared_length_too_large_witness :
    DownloadFile
        (tableWorld []
          [("https://example.com/repo/targets.json",
            { StatusCode := 200, Body := [1, 2, 3], Header := [("Content-Length", ["500"])] })]
          (Except.ok []))
        sampleFetcher "https://example.com/repo/targets.json" 100 30
      = Except.error (GoError.ErrDownloadLengthMismatch
          (lengthMismatchMsg "https://example.com/repo/targets.json" 500 100)) :=
  downloadFile_declared_length_too_large _ sampleFetcher
    "https://example.com/repo/targets.json" 100 30 [1, 2, 3] [("Content-Length", ["500"])] 500
    (by decide) (by decide) (by decide) (by decide)

/-- Witness of C5: the file `/data/tuf/root.json` does not exist. -/
theorem downloadFile_unreadable_local_is_404_witness :
    DownloadFile (tableWorld [] [] (Except.ok [])) sampleFetcher
        ("file://" ++ "/data/tuf/root.json") 100 30
      = Except.error (GoError.ErrDownloadHTTP 404 ("file://" ++ "/data/tuf/root.json")) :=
  downloadFile_unreadable_local_is_404 _ sampleFetcher "/data/tuf/root.json" 100 30
    (GoError.other "no such file or directory") (by decide)

/-- Witness of C6: a 503 response that also declares an oversized length. -/
theorem downloadFile_non200_is_transport_failure_witness :
    DownloadFile
        (tableWorld []
          [("https://example.com/repo/targets.json",
            { StatusCode := 503, Body := [1, 2, 3], Header := [("Content-Length", ["500"])] })]
          (Except.ok []))
        sampleFetcher "https://example.com/repo/targets.json" 2 30
      = Except.error (GoError.ErrDownloadHTTP 503 "https://example.com/repo/targets.json") :=
  downloadFile_non200_is_transport_failure _ sampleFetcher
    "https://example.com/repo/targets.json" 2 30 503 [1, 2, 3] [("Content-Length", ["500"])]
    (by decide) (by decide) (by decide)

theorem readRemoteFile_ok {U : Type} (w : World U) (d : FioFetcher) (urlPath : String)
    (maxLength : Int) (res : HttpRes) (data : Bytes)
    (hget : w.httpGet d.client urlPath [("x-ats-tags", d.tag)] = Except.ok res)
    (hok : readRemoteFile w d urlPath maxLength = Except.ok data) :
    data = res.Body ∧ (data.length : Int) ≤ maxLength := by
  simp only [readRemoteFile, hget] at hok
  split at hok
  · simp at hok
  · split at hok
    · simp at hok
    · split at hok
      · simp at hok
      · simp only [Except.ok.injEq] at hok
        subst hok
        exact ⟨rfl, by omega⟩

theorem readRemoteFile_body_too_long {U : Type} (w : World U) (d : FioFetcher)
    (urlPath : String) (maxLength : Int) (res : HttpRes)
    (hget : w.httpGet d.client urlPath [("x-ats-tags", d.tag)] = Except.ok res)
    (hstatus : res.StatusCode = 200) (hbody : (res.Body.length : Int) > maxLength) :
    (res.Header.Get "Content-Length" = "" →
      readRemoteFile w d urlPath maxLength = Except.error (GoError.ErrDownloadLengthMismatch
        (lengthMismatchMsg urlPath (res.Body.length : Int) maxLength))) ∧
    (∀ v : Int, ParseIntBase10 (res.Header.Get "Content-Length") 0 = Except.ok v →
      readRemoteFile w d urlPath maxLength = Except.error (GoError.ErrDownloadLengthMismatch
        (lengthMismatchMsg urlPath (if v > maxLength then v else (res.Body.length : Int))
          maxLength))) ∧
    (∀ e : GoError, res.Header.Get "Content-Length" ≠ "" →
      ParseIntBase10 (res.Header.Get "Content-Length") 0 = Except.error e →
      readRemoteFile w d urlPath maxLength = Except.error e) := by
  refine ⟨?_, ?_, ?_⟩
  · intro h0
    simp [readRemoteFile, hget, hstatus, h0, hbody]
  · intro v hv
    have hne : res.Header.Get "Content-Length" ≠ "" := by
      intro h0
      rw [h0] at hv
      exact parseIntBase10_empty 0 v hv
    by_cases hlarge : v > maxLength
    · simp [readRemoteFile, hget, hstatus, hne, hv, hlarge]
    · simp [readRemoteFile, hget, hstatus, hne, hv, hlarge, hbody]
  · intro e hne he
    simp [readRemoteFile, hget, hstatus, hne, he]

/-- C3, as it stands, fails: a response with status 200 whose body (5 bytes) is longer
than `maxLength = 1` and whose `Content-Length` header is the malformed `abc` makes
`DownloadFile` return the `strconv` syntax error, which is not a length mismatch. -/
theorem downloadFile_body_too_long_malformed_header :
    ¬ (∀ (w : World Targets) (d : FioFetcher) (urlPath : String) (maxLength timeout : Int)
        (res : HttpRes),
        HasPrefix urlPath "file://" = false →
        w.httpGet d.client urlPath [("x-ats-tags", d.tag)] = Except.ok res →
        res.StatusCode = 200 →
        (res.Body.length : Int) > maxLength →
        ∃ msg, DownloadFile w d urlPath maxLength timeout
          = Except.error (GoError.ErrDownloadLengthMismatch msg)) := by
  intro h
  obtain ⟨msg, hmsg⟩ := h
    (tableWorld []
      [("https://example.com/repo/targets.json",
        { StatusCode := 200, Body := [1, 2, 3, 4, 5], Header := [("Content-Length", ["abc"])] })]
      (Except.ok []))
    sampleFetcher "https://example.com/repo/targets.json" 1 30
    { StatusCode := 200, Body := [1, 2, 3, 4, 5], Header := [("Content-Length", ["abc"])] }
    (by decide) (by decide) (by decide) (by decide)
  have hcode : DownloadFile
      (tableWorld []
        [("https://example.com/repo/targets.json",
          { StatusCode := 200, Body := [1, 2, 3, 4, 5],
            Header := [("Content-Length", ["abc"])] })]
        (Except.ok []))
      sampleFetcher "https://example.com/repo/targets.json" 1 30
      = Except.error (GoError.NumError "ParseInt" "abc" NumErrKind.ErrSyntax) := by decide
  rw [hcode] at hmsg
  simp at hmsg

/-- C3, amended. For every remote URL, every `maxLength` and every response with status
200 whose body is longer than `maxLength`: when the `Content-Length` header is absent
or parses to an integer (whether or not that integer exceeds `maxLength`),
`DownloadFile` returns a length-mismatch error; when the header is present and does not
parse, `DownloadFile` returns the parse error. In neither case are bytes returned.
For every response, a successful fetch returns exactly the response body and that body
has length at most `maxLength`. -/
theorem downloadFile_body_too_long {U : Type} (w : World U) (d : FioFetcher)
    (urlPath : String) (maxLength timeout : Int) (res : HttpRes)
    (hurl : HasPrefix urlPath "file://" = false)
    (hget : w.httpGet d.client urlPath [("x-ats-tags", d.tag)] = Except.ok res) :
    (res.StatusCode = 200 → (res.Body.length : Int) > maxLength →
      ((res.Header.Get "Content-Length" = "" ∨
          ∃ v : Int, ParseIntBase10 (res.Header.Get "Content-Length") 0 = Except.ok v) →
        ∃ msg, DownloadFile w d urlPath maxLength timeout
          = Except.error (GoError.ErrDownloadLengthMismatch msg)) ∧
      (∀ e : GoError, res.Header.Get "Content-Length" ≠ "" →
        ParseIntBase10 (res.Header.Get "Content-Length") 0 = Except.error e →
        DownloadFile w d urlPath maxLength timeout = Except.error e) ∧
      (∀ data : Bytes, DownloadFile w d urlPath maxLength timeout ≠ Except.ok data)) ∧
    (∀ data : Bytes, DownloadFile w d urlPath maxLength timeout = Except.ok data →
      data = res.Body ∧ (data.length : Int) ≤ maxLength) := by
  rw [downloadFile_remote w d urlPath maxLength timeout hurl]
  refine ⟨?_, ?_⟩
  · intro hstatus hbody
    obtain ⟨habsent, hparsed, hbad⟩ :=
      readRemoteFile_body_too_long w d urlPath maxLength res hget hstatus hbody
    refine ⟨?_, hbad, ?_⟩
    · rintro (h0 | ⟨v, hv⟩)
      · exact ⟨_, habsent h0⟩
      · exact ⟨_, hparsed v hv⟩
    · intro data hok
      obtain ⟨hdata, hlen⟩ := readRemoteFile_ok w d urlPath maxLength res data hget hok
      rw [hdata] at hlen
      omega
  · intro data hok
    exact readRemoteFile_ok w d urlPath maxLength res data hget hok

/-- Witness of the amended C3: no `Content-Length` header, a body of five bytes,
`maxLength = 1`. -/
theorem downloadFile_body_too_long_witness :
    (∃ msg, DownloadFile
        (tableWorld []
          [("https://example.com/repo/targets.json",
            { StatusCode := 200, Body := [1, 2, 3, 4, 5], Header := [] })]
          (Except.ok []))
        sampleFetcher "https://example.com/repo/targets.json" 1 30
      = Except.error (GoError.ErrDownloadLengthMismatch msg)) :=
  ((downloadFile_body_too_long
    (tableWorld []
      [("https://example.com/repo/targets.json",
        { StatusCode := 200, Body := [1, 2, 3, 4, 5], Header := [] })]
      (Except.ok []))
    sampleFetcher "https://example.com/repo/targets.json" 1 30
    { StatusCode := 200, Body := [1, 2, 3, 4, 5], Header := [] }
    (by decide) (by decide)).1 (by decide) (by decide)).1 (Or.inl (by decide))

/-- C4, the code at the failing input: the file `/data/tuf/targets.json` holds five
bytes and `maxLength` is 1, yet `DownloadFile` returns all five bytes instead of a
length-mismatch failure. -/
theorem downloadFile_local_ignores_maxLength :
    DownloadFile
        (tableWorld [("/data/tuf/targets.json", [1, 2, 3, 4, 5])] [] (Except.ok []))
        sampleFetcher "file:///data/tuf/targets.json" 1 30
      = Except.ok [1, 2, 3, 4, 5] ∧
    ((([1, 2, 3, 4, 5] : Bytes).length : Int) > 1) := by
  decide

/-! ## Location resolution: local override -/

theorem hasPrefix_ne_empty (s : String) (h : HasPrefix s "file://" = true) : s ≠ "" := by
  intro h0
  rw [h0] at h
  exact absurd h (by decide)

theorem resolveRepoUrl_override (a : App) (s : String) (hs : s ≠ "") :
    resolveRepoUrl a s = if HasPrefix s "file://" = true then s else "file://" ++ s := by
  simp [resolveRepoUrl, hs]

theorem resolveRepoUrl_override_hasPrefix (a : App) (s : String) (hs : s ≠ "") :
    HasPrefix (resolveRepoUrl a s) "file://" = true := by
  rw [resolveRepoUrl_override a s hs]
  by_cases h : HasPrefix s "file://" = true
  · simp [h]
  · simp [h, hasPrefix_append]

theorem refreshTufApp_resolves {U : Type} (w : World U) (a : App) (g : Globals U)
    (client : HttpClient) (localRepoPath : String) :
    refreshTufApp w a g client localRepoPath
      = refreshTuf w { g with fioClient := client } client (resolveRepoUrl a localRepoPath)
          (a.sotaGet "pacman.tags") :=
  rfl

/-- C8. For every non-empty local override `s`, `refreshTufApp` runs `refreshTuf` on the
base `s` itself when `s` starts with `file://` and on `"file://" + s` otherwise (with
the tag read from the configuration). That base always starts with `file://`,
`DownloadFile` on it takes the local-read branch, and resolving the resolved base again
changes nothing: `refreshTufApp` called with the resolved base as override does what it
does with `s`. -/
theorem refreshTufApp_local_override (a : App) (s : String) (hs : s ≠ "") :
    (∀ (U : Type) (w : World U) (g : Globals U) (client : HttpClient),
      refreshTufApp w a g client s
        = refreshTuf w { g with fioClient := client } client
            (if HasPrefix s "file://" = true then s else "file://" ++ s)
            (a.sotaGet "pacman.tags")) ∧
    HasPrefix (if HasPrefix s "file://" = true then s else "file://" ++ s) "file://" = true ∧
    (∀ (U : Type) (w : World U) (d : FioFetcher) (maxLength timeout : Int),
      DownloadFile w d (if HasPrefix s "file://" = true then s else "file://" ++ s)
          maxLength timeout
        = readLocalFile w
            (sliceFrom (if HasPrefix s "file://" = true then s else "file://" ++ s)
              "file://".length)) ∧
    (∀ (U : Type) (w : World U) (g : Globals U) (client : HttpClient),
      refreshTufApp w a g client (if HasPrefix s "file://" = true then s else "file://" ++ s)
        = refreshTufApp w a g client s) ∧
    resolveRepoUrl a s = (if HasPrefix s "file://" = true then s else "file://" ++ s) ∧
    resolveRepoUrl a (resolveRepoUrl a s) = resolveRepoUrl a s := by
  have hbase := resolveRepoUrl_override a s hs
  have hpre := resolveRepoUrl_override_hasPrefix a s hs
  have hidem : resolveRepoUrl a (resolveRepoUrl a s) = resolveRepoUrl a s := by
    rw [resolveRepoUrl_override a _ (hasPrefix_ne_empty _ hpre)]
    simp [hpre]
  rw [← hbase]
  refine ⟨?_, hpre, ?_, ?_, rfl, hidem⟩
  · intro U w g client
    exact refreshTufApp_resolves w a g client s
  · intro U w d maxLength timeout
    unfold DownloadFile
    rw [hpre]
    simp
  · intro U w g client
    rw [refreshTufApp_resolves, refreshTufApp_resolves, hidem]

/-- Witness of C8: with the override `/data/tuf` the updater is built for the base
`file:///data/tuf`, which is also the location bound to its fetcher. -/
theorem refreshTufApp_local_override_witness :
    (refreshTufApp recordingWorld sampleApp (Globals.initial UpdaterConfig) none
        "/data/tuf").1.fioUpdater
      = some
          { RemoteMetadataURL := "file:///data/tuf", LocalTrustedRoot := [],
            LocalMetadataDir := "/var/sota/tuf/", LocalTargetsDir := "/var/sota/tuf/download",
            RemoteTargetsURL := "file:///data/tuf", PrefixTargetsWithHash := true,
            Fetcher := some { client := none, tag := "main", repoUrl := "file:///data/tuf" } } :=
  (congrArg (fun r => r.1.fioUpdater)
    ((refreshTufApp_local_override sampleApp "/data/tuf" (by decide)).1 UpdaterConfig
      recordingWorld (Globals.initial UpdaterConfig) none)).trans (by decide)

/-! ## Refresh orchestration -/

theorem refreshTuf_failure_before_refresh {U : Type} (w : World U) (g : Globals U)
    (client : HttpClient) (repoUrl tag : String)
    (h : (∃ err, getTufCfg w client repoUrl tag = Except.error err) ∨
      (∃ cfg err, getTufCfg w client repoUrl tag = Except.ok cfg ∧
        w.updaterNew cfg = Except.error err)) :
    (refreshTuf w g client repoUrl tag).1 = g ∧
    ∃ err, (refreshTuf w g client repoUrl tag).2 = Except.ok (some err) := by
  rcases h with ⟨err, h1⟩ | ⟨cfg, err, h1, h2⟩
  · simp [refreshTuf, h1]
  · simp [refreshTuf, h1, h2]

theorem refreshTuf_failure_in_refresh {U : Type} (w : World U) (g : Globals U)
    (client : HttpClient) (repoUrl tag : String) (cfg : UpdaterConfig) (up up1 : U)
    (err : GoError) (h1 : getTufCfg w client repoUrl tag = Except.ok cfg)
    (h2 : w.updaterNew cfg = Except.ok up) (h3 : w.Refresh up = (up1, some err)) :
    refreshTuf w g client repoUrl tag
      = ({ g with fioUpdater := some up1 }, Except.ok (some err)) := by
  simp [refreshTuf, h1, h2, h3]

/-- C1, the code at the failing input: the slot holds the updater of an earlier
successful refresh (one target, `app-1.0`); the root file is readable, the
configuration and the updater are built, and the Trust Engine's `Refresh` fails.
`refreshTuf` returns that error, yet the slot now holds the new updater, so
`list targets` no longer returns what the previous successful refresh produced. -/
theorem refreshTuf_failed_refresh_overwrites_slot :
    (refreshTuf
        (tableWorld [("/var/sota/tuf/root.json", [1])] []
          (Except.error (GoError.other "invalid timestamp signature")))
        { fioUpdater := some [("app-1.0", "sha256:aa")], fioClient := none }
        none "https://example.com/repo" "main").2
      = Except.ok (some (GoError.other "invalid timestamp signature")) ∧
    (refreshTuf
        (tableWorld [("/var/sota/tuf/root.json", [1])] []
          (Except.error (GoError.other "invalid timestamp signature")))
        { fioUpdater := some [("app-1.0", "sha256:aa")], fioClient := none }
        none "https://example.com/repo" "main").1.fioUpdater
      = some [] ∧
    getTargetsHttp
        (tableWorld [("/var/sota/tuf/root.json", [1])] []
          (Except.error (GoError.other "invalid timestamp signature")))
        { fioUpdater := some [("app-1.0", "sha256:aa")], fioClient := none }
      = Except.ok (200, [("app-1.0", "sha256:aa")]) ∧
    getTargetsHttp
        (tableWorld [("/var/sota/tuf/root.json", [1])] []
          (Except.error (GoError.other "invalid timestamp signature")))
        (refreshTuf
          (tableWorld [("/var/sota/tuf/root.json", [1])] []
            (Except.error (GoError.other "invalid timestamp signature")))
          { fioUpdater := some [("app-1.0", "sha256:aa")], fioClient := none }
          none "https://example.com/repo" "main").1
      = Except.ok (200, []) := by
  decide

/-! ## Control API -/

/-- C9, the code at the failing input: at process start the slot `fioUpdater` is nil,
and both `getTargetsHttp` and `getRootHttp` pass the nil pointer to the Trust Engine's
accessors, which dereference it; the same holds after a refresh that failed because the
local root file is missing. -/
theorem handlers_dereference_nil_slot :
    getTargetsHttp (tableWorld [] [] (Except.ok [])) (Globals.initial Targets)
      = Except.error Panic.nilDereference ∧
    getRootHttp (tableWorld [] [] (Except.ok [])) (Globals.initial Targets)
      = Except.error Panic.nilDereference ∧
    (refreshTufApp (tableWorld [] [] (Except.ok [])) sampleApp (Globals.initial Targets)
        none "").2 = Except.ok (some (GoError.other "no such file or directory")) ∧
    getTargetsHttp (tableWorld [] [] (Except.ok []))
        (refreshTufApp (tableWorld [] [] (Except.ok [])) sampleApp (Globals.initial Targets)
          none "").1
      = Except.error Panic.nilDereference ∧
    getRootHttp (tableWorld [] [] (Except.ok []))
        (refreshTufApp (tableWorld [] [] (Except.ok [])) sampleApp (Globals.initial Targets)
          none "").1
      = Except.error Panic.nilDereference := by
  decide

/-! ## Location resolution: remote base -/

theorem config_data : "/config".data = ['/', 'c', 'o', 'n', 'f', 'i', 'g'] := rfl

theorem repo_data : "/repo".data = ['/', 'r', 'e', 'p', 'o'] := rfl

theorem file_data : "file://".data = ['f', 'i', 'l', 'e', ':', '/', '/'] := rfl

theorem replaceLoop_cons (old new : List Char) (c : Char) (cs : List Char) :
    replaceLoop old new none 0 (c :: cs)
      = if old.isPrefixOf (c :: cs) = true then
          new ++ replaceLoop old new none (old.length - 1) cs
        else c :: replaceLoop old new none 0 cs := by
  simp [replaceLoop]

theorem replaceLoop_skip_all (old new : List Char) (lim : Option Nat) (cs : List Char) :
    replaceLoop old new lim cs.length cs = [] := by
  induction cs with
  | nil => simp [replaceLoop]
  | cons c cs ih => simpa [replaceLoop] using ih

/-- An occurrence of `/config` cannot start inside `p` and end inside a following
`/config`: the only `/` of the segment is its first character. -/
theorem config_no_straddle (p : List Char) (hp : p ≠ [])
    (h : ['/', 'c', 'o', 'n', 'f', 'i', 'g'].isPrefixOf p = false) :
    ['/', 'c', 'o', 'n', 'f', 'i', 'g'].isPrefixOf (p ++ ['/', 'c', 'o', 'n', 'f', 'i', 'g'])
      = false := by
  rcases p with _ | ⟨a0, _ | ⟨a1, _ | ⟨a2, _ | ⟨a3, _ | ⟨a4, _ | ⟨a5, _ | ⟨a6, p⟩⟩⟩⟩⟩⟩⟩
  · exact absurd rfl hp
  all_goals simp [List.isPrefixOf] at h ⊢
  exact h


theorem replaceLoop_append_config (p : List Char)
    (h : occursIn ['/', 'c', 'o', 'n', 'f', 'i', 'g'] p = false) :
    replaceLoop ['/', 'c', 'o', 'n', 'f', 'i', 'g'] ['/', 'r', 'e', 'p', 'o'] none 0
        (p ++ ['/', 'c', 'o', 'n', 'f', 'i', 'g'])
      = p ++ ['/', 'r', 'e', 'p', 'o'] := by
  induction p with
  | nil => decide
  | cons c p ih =>
    simp only [occursIn, Bool.or_eq_false_iff] at h
    have hno := config_no_straddle (c :: p) (by simp) h.1
    rw [List.cons_append, replaceLoop_cons, List.cons_append] at *
    rw [if_neg (by simp [hno]), ih h.2]
    rfl

theorem replace_config_suffix (p : String) (h : Contains p "/config" = false) :
    Replace (p ++ "/config") "/config" "/repo" (-1) = p ++ "/repo" := by
  have h1 : ¬ ("/config" = "/repo" ∨ (-1 : Int) = 0) := by decide
  have h2 : ¬ ("/config".data = []) := by decide
  unfold Replace
  rw [if_neg h1, if_neg h2, if_pos (by decide)]
  apply String.ext
  rw [String.data_append, String.data_append, config_data, repo_data]
  exact replaceLoop_append_config p.data h

/-- One step of the scan: a character other than `/` at the head of the output was
copied from the head of the input. -/
theorem replaceLoop_head (a : Char) (pat s : List Char) (ha : a ≠ '/')
    (h : (a :: pat).isPrefixOf
      (replaceLoop ['/', 'c', 'o', 'n', 'f', 'i', 'g'] ['/', 'r', 'e', 'p', 'o'] none 0 s)
        = true) :
    ∃ s1, s = a :: s1 ∧ pat.isPrefixOf
      (replaceLoop ['/', 'c', 'o', 'n', 'f', 'i', 'g'] ['/', 'r', 'e', 'p', 'o'] none 0 s1)
        = true := by
  rcases s with _ | ⟨c, s1⟩
  · simp [replaceLoop] at h
  · rw [replaceLoop_cons] at h
    split at h
    · simp [List.isPrefixOf] at h
      exact absurd h.1 ha
    · simp only [List.isPrefixOf, Bool.and_eq_true, beq_iff_eq] at h
      exact ⟨s1, by rw [h.1], h.2⟩

theorem replaceLoop_keeps_file_scheme (s : List Char)
    (h : ['f', 'i', 'l', 'e', ':', '/', '/'].isPrefixOf
      (replaceLoop ['/', 'c', 'o', 'n', 'f', 'i', 'g'] ['/', 'r', 'e', 'p', 'o'] none 0 s)
        = true) :
    ['f', 'i', 'l', 'e', ':', '/', '/'].isPrefixOf s = true := by
  obtain ⟨s1, rfl, h1⟩ := replaceLoop_head 'f' _ s (by decide) h
  obtain ⟨s2, rfl, h2⟩ := replaceLoop_head 'i' _ s1 (by decide) h1
  obtain ⟨s3, rfl, h3⟩ := replaceLoop_head 'l' _ s2 (by decide) h2
  obtain ⟨s4, rfl, h4⟩ := replaceLoop_head 'e' _ s3 (by decide) h3
  obtain ⟨s5, rfl, h5⟩ := replaceLoop_head ':' _ s4 (by decide) h4
  clear h h1 h2 h3 h4
  rcases s5 with _ | ⟨c5, s6⟩
  · simp [replaceLoop] at h5
  rw [replaceLoop_cons] at h5
  split at h5
  · simp [List.isPrefixOf] at h5
  rcases s6 with _ | ⟨c6, s7⟩
  · simp [replaceLoop, List.isPrefixOf] at h5
  rw [replaceLoop_cons] at h5
  split at h5
  · rename_i hm
    simp [List.isPrefixOf] at h5 hm ⊢
    exact ⟨h5, hm.1⟩
  · simp [List.isPrefixOf] at h5 ⊢
    exact h5

theorem resolveRepoUrl_empty_override (a : App) :
    resolveRepoUrl a "" = Replace a.configUrl "/config" "/repo" (-1) := by
  simp [resolveRepoUrl]

theorem replace_config_keeps_file_scheme (s : String)
    (h : HasPrefix (Replace s "/config" "/repo" (-1)) "file://" = true) :
    HasPrefix s "file://" = true := by
  have h1 : ¬ ("/config" = "/repo" ∨ (-1 : Int) = 0) := by decide
  have h2 : ¬ ("/config".data = []) := by decide
  unfold Replace at h
  rw [if_neg h1, if_neg h2, if_pos (by decide)] at h
  exact replaceLoop_keeps_file_scheme s.data h

/-- C7. With an empty local override `refreshTufApp` runs `refreshTuf` on the
control-plane URL with every `/config` replaced by `/repo` (and the tag read from the
configuration). When the control-plane URL is `p + "/config"` and `p` contains no
`/config`, that base is exactly `p + "/repo"`. For every control-plane URL the base
starts with `file://` only if the control-plane URL does, so for a remote control-plane
URL `DownloadFile` on the base takes the remote branch. -/
theorem refreshTufApp_remote_base (a : App) (p : String)
    (hurl : a.configUrl = p ++ "/config") (hp : Contains p "/config" = false) :
    (∀ (U : Type) (w : World U) (g : Globals U) (client : HttpClient),
      refreshTufApp w a g client ""
        = refreshTuf w { g with fioClient := client } client (p ++ "/repo")
            (a.sotaGet "pacman.tags")) ∧
    (∀ (b : App) (U : Type) (w : World U) (g : Globals U) (client : HttpClient),
      refreshTufApp w b g client ""
        = refreshTuf w { g with fioClient := client } client
            (Replace b.configUrl "/config" "/repo" (-1)) (b.sotaGet "pacman.tags")) ∧
    Replace a.configUrl "/config" "/repo" (-1) = p ++ "/repo" ∧
    (∀ b : App, HasPrefix (Replace b.configUrl "/config" "/repo" (-1)) "file://" = true →
      HasPrefix b.configUrl "file://" = true) ∧
    (∀ (b : App) (U : Type) (w : World U) (d : FioFetcher) (maxLength timeout : Int),
      HasPrefix b.configUrl "file://" = false →
      DownloadFile w d (Replace b.configUrl "/config" "/repo" (-1)) maxLength timeout
        = readRemoteFile w d (Replace b.configUrl "/config" "/repo" (-1)) maxLength) ∧
    resolveRepoUrl a "" = p ++ "/repo" := by
  have hbase : ∀ (b : App) (U : Type) (w : World U) (g : Globals U) (client : HttpClient),
      refreshTufApp w b g client ""
        = refreshTuf w { g with fioClient := client } client
            (Replace b.configUrl "/config" "/repo" (-1)) (b.sotaGet "pacman.tags") := by
    intro b U w g client
    rw [refreshTufApp_resolves, resolveRepoUrl_empty_override]
  have hrepl : Replace a.configUrl "/config" "/repo" (-1) = p ++ "/repo" := by
    rw [hurl]
    exact replace_config_suffix p hp
  have hkeep : ∀ b : App,
      HasPrefix (Replace b.configUrl "/config" "/repo" (-1)) "file://" = true →
      HasPrefix b.configUrl "file://" = true :=
    fun b hb => replace_config_keeps_file_scheme b.configUrl hb
  refine ⟨?_, hbase, hrepl, hkeep, ?_, ?_⟩
  · intro U w g client
    rw [hbase, hrepl]
  · intro b U w d maxLength timeout hb
    apply downloadFile_remote
    cases hres : HasPrefix (Replace b.configUrl "/config" "/repo" (-1)) "file://" with
    | false => rfl
    | true => rw [hkeep b hres] at hb; exact absurd hb (by decide)
  · rw [resolveRepoUrl_empty_override, hrepl]

/-- Witness of C7: with the control-plane URL `https://example.com/config` and no
override the updater is built for the base `https://example.com/repo`, which is also
the location bound to its fetcher. -/
theorem refreshTufApp_remote_base_witness :
    (refreshTufApp recordingWorld sampleApp (Globals.initial UpdaterConfig) none
        "").1.fioUpdater
      = some
          { RemoteMetadataURL := "https://example.com/repo", LocalTrustedRoot := [],
            LocalMetadataDir := "/var/sota/tuf/", LocalTargetsDir := "/var/sota/tuf/download",
            RemoteTargetsURL := "https://example.com/repo", PrefixTargetsWithHash := true,
            Fetcher :=
              some { client := none, tag := "main", repoUrl := "https://example.com/repo" } } :=
  (congrArg (fun r => r.1.fioUpdater)
    ((refreshTufApp_remote_base sampleApp "https://example.com" (by decide) (by decide)).1
      UpdaterConfig recordingWorld (Globals.initial UpdaterConfig) none)).trans (by decide)

end Fiotuf
